import Mathlib

/-!
Verification of the ca-injector admission webhook and reconciler
(`main.go` of AbsaOSS/ca-injector).

The development shallowly embeds the two cores of the program:

* the mutation decider (the `/pods` admission handler, `main.go` lines
  66-171): a pure function from a decoded pod to an admission decision,
  where a decision is either "allow unchanged" or "allow with patch";
* the compliance reconciler (the background goroutine, `main.go` lines
  178-246): per pod, an unconditional audit event, then the compliance
  check against the trigger annotation, then deletion plus a counter
  increment for non-compliant annotated pods.

Go slices that the program distinguishes from empty slices by a `nil`
check are embedded as `Option (List _)`; slices the program only
measures with `len` are plain lists.  Go map lookup on a possibly
missing key (which yields `""`) is `getAnn`.  JSON-Patch paths, which
the program builds with `fmt.Sprintf`, are embedded as the inductive
`PatchPath` whose constructors stand one-for-one for the format strings
of the source; `PatchPath.render` reproduces the exact strings.
Side effects of the reconciler (event creation, counter increments,
deletions, error logs) are reified as an `ReconAction` list; `logrus.Fatal`
(which exits the process) is reified as the `fatal` outcome of a pass.
-/

/-- The trigger annotation key, `label` in `main.go`. -/
def label : String := "microcumul.us/injectssl"

/-- The fixed synthetic volume name, `volumeName` in `main.go`. -/
def volumeName : String := "microcumulus-injected-ssl"

/-- `corev1.SecretVolumeSource`: the only field the program reads. -/
structure SecretVolumeSource where
  secretName : String
deriving DecidableEq, Repr

/-- `corev1.Volume`: name plus optional secret source (`vol.Secret` may be nil). -/
structure Volume where
  name : String
  secret : Option SecretVolumeSource
deriving DecidableEq, Repr

/-- `corev1.EnvVar`: name/value pair. -/
structure EnvVar where
  name : String
  value : String
deriving DecidableEq, Repr

/-- `corev1.VolumeMount`: the fields the injected mount carries. -/
structure VolumeMount where
  name : String
  mountPath : String
  readOnly : Bool
deriving DecidableEq, Repr

/-- A container as the program reads it: `ctr.Env` is compared against
nil (so it is an `Option`), `ctr.VolumeMounts` is only measured with
`len` (nil and empty are indistinguishable there). -/
structure Container where
  name : String
  env : Option (List EnvVar)
  volumeMounts : List VolumeMount
deriving DecidableEq, Repr

/-- `metav1.OwnerReference`: the fields copied at `main.go` lines 212-218. -/
structure OwnerReference where
  kind : String
  name : String
  uid : String
  apiVersion : String
deriving DecidableEq, Repr

/-- A pod as the program reads it.  `ns` is `pod.Namespace`.
`volumes` is `pod.Spec.Volumes`, compared against nil at line 94, so it
is an `Option`; ranging over a nil slice (line 232) ranges over nothing. -/
structure Pod where
  kind : String
  apiVersion : String
  ns : String
  name : String
  uid : String
  resourceVersion : String
  annotations : List (String × String)
  ownerReferences : List OwnerReference
  volumes : Option (List Volume)
  containers : List Container
deriving DecidableEq, Repr

/-- Go map indexing `pod.Annotations[key]`: the value when the key is
present, and the zero value `""` when it is absent (or the map is nil). -/
def getAnn (anns : List (String × String)) (key : String) : String :=
  match anns.lookup key with
  | some v => v
  | none => ""

/-- The JSON-Patch paths the program emits.  Each constructor stands for
one format string of `main.go`; `PatchPath.render` reproduces the exact
string, with the container index substituted for the `%d` verbs. -/
inductive PatchPath where
  | volumesInit
  | volumesAppend
  | envInit (i : Nat)
  | envAppend (i : Nat)
  | mountsInit (i : Nat)
  | mountsAppend (i : Nat)
deriving DecidableEq, Repr

/-- The exact path strings of `main.go` (lines 97, 105, 117, 124, 131, 142, 149). -/
def PatchPath.render : PatchPath → String
  | .volumesInit => "/spec/volumes"
  | .volumesAppend => "/spec/volumes/-"
  | .envInit i => "/spec/containers/" ++ toString i ++ "/env"
  | .envAppend i => "/spec/containers/" ++ toString i ++ "/env/-"
  | .mountsInit i => "/spec/containers/" ++ toString i ++ "/volumeMounts"
  | .mountsAppend i => "/spec/containers/" ++ toString i ++ "/volumeMounts/-"

/-- The untyped JSON values (`m map[string]interface\x7b\x7d`) the program
puts in patch operations, as the tagged union of the shapes it actually
builds. -/
inductive PatchValue where
  | emptyArray
  | volumeSpec (name : String) (secretName : String)
  | envVar (name : String) (value : String)
  | mount (name : String) (mountPath : String) (readOnly : Bool)
deriving DecidableEq, Repr

/-- `type p struct` of `main.go`: one JSON-Patch operation.  Every
operation the program builds has op "add" and a value. -/
structure PatchOp where
  op : String
  path : PatchPath
  value : PatchValue
deriving DecidableEq, Repr

/-- Line 95-99: initialize `/spec/volumes` with an empty array. -/
def volumesInitOp : PatchOp := ⟨"add", .volumesInit, .emptyArray⟩

/-- Lines 103-112: append the injected volume referencing the secret. -/
def volumeAddOp (secretName : String) : PatchOp :=
  ⟨"add", .volumesAppend, .volumeSpec volumeName secretName⟩

/-- Lines 115-121: append the SSL_CERT_FILE environment variable to container i. -/
def sslEnvOp (i : Nat) : PatchOp :=
  ⟨"add", .envAppend i, .envVar "SSL_CERT_FILE" "/ssl/ca.crt"⟩

/-- Lines 122-128: append the NODE_EXTRA_CA_CERTS environment variable to container i. -/
def nodeEnvOp (i : Nat) : PatchOp :=
  ⟨"add", .envAppend i, .envVar "NODE_EXTRA_CA_CERTS" "/ssl/ca.crt"⟩

/-- Lines 129-137: append the read-only mount of the injected volume to container i. -/
def mountAddOp (i : Nat) : PatchOp :=
  ⟨"add", .mountsAppend i, .mount volumeName "/ssl" true⟩

/-- Lines 140-144: initialize container i's env with an empty array. -/
def envInitOp (i : Nat) : PatchOp := ⟨"add", .envInit i, .emptyArray⟩

/-- Lines 147-151: initialize container i's volumeMounts with an empty array. -/
def mountsInitOp (i : Nat) : PatchOp := ⟨"add", .mountsInit i, .emptyArray⟩

/-- Lines 114-155, one iteration of the container loop: build
`ps = [env, env, mount]`, prepend the env array init when `ctr.Env == nil`,
then prepend the volumeMounts array init when `len(ctr.VolumeMounts) == 0`. -/
def containerOps (i : Nat) (ctr : Container) : List PatchOp :=
  let ps := [sslEnvOp i, nodeEnvOp i, mountAddOp i]
  let ps := if ctr.env = none then envInitOp i :: ps else ps
  let ps := if ctr.volumeMounts.length = 0 then mountsInitOp i :: ps else ps
  ps

/-- The container loop of lines 114-155: concatenate the per-container
operations in container order, indices counting up from `k`. -/
def containersPatch (k : Nat) : List Container → List PatchOp
  | [] => []
  | c :: cs => containerOps k c ++ containersPatch (k + 1) cs

/-- Lines 93-155: the whole patch.  The volume-array init is emitted
only when `pod.Spec.Volumes == nil`, then the volume append, then the
per-container operations with indices from 0. -/
def makePatch (pod : Pod) : List PatchOp :=
  (if pod.volumes = none then [volumesInitOp] else [])
    ++ [volumeAddOp (getAnn pod.annotations label)]
    ++ containersPatch 0 pod.containers

/-- The admission decision: line 87-89 returns allowed with no patch,
lines 163-170 return allowed with the serialized patch. -/
inductive AdmissionResult where
  | allowUnchanged
  | allowPatch (patch : List PatchOp)
deriving DecidableEq, Repr

/-- The mutation decider, lines 85-170 (the metric increment and logging
are side effects outside the returned decision): allow unchanged when
the trigger annotation is absent or empty, otherwise allow with the
generated patch. -/
def decidePod (pod : Pod) : AdmissionResult :=
  if getAnn pod.annotations label = "" then .allowUnchanged
  else .allowPatch (makePatch pod)

/-- Line 233, the match done for each volume inside the reconciler loop:
`vol.Secret != nil && vol.Secret.SecretName == secret`. -/
def volMatches (secret : String) (vol : Volume) : Bool :=
  match vol.secret with
  | some s => s.secretName == secret
  | none => false

/-- The compliance predicate, lines 231-236: some volume of the pod
has a secret source whose name equals the trigger annotation value
(the labeled `continue items` is the short-circuit of `List.any`). -/
def isCompliant (pod : Pod) : Bool :=
  (pod.volumes.getD []).any (volMatches (getAnn pod.annotations label))

/-- The fields of `corev1.ObjectReference` set at lines 202-218. -/
structure ObjectReference where
  kind : String
  ns : String
  name : String
  uid : String
  apiVersion : String
  resourceVersion : String
deriving DecidableEq, Repr

/-- Lines 202-219: the event's involved object is built from the first
owner reference when one exists (namespace still the pod's, resource
version left at its zero value), else from the pod's own identity. -/
def attributionRef (pod : Pod) : ObjectReference :=
  match pod.ownerReferences with
  | [] => ⟨pod.kind, pod.ns, pod.name, pod.uid, pod.apiVersion, pod.resourceVersion⟩
  | o :: _ => ⟨o.kind, pod.ns, o.name, o.uid, o.apiVersion, ""⟩

/-- Line 224: the event message. -/
def eventMessage (pod : Pod) : String :=
  "pod annotation on \"" ++ pod.name ++ "\" has not been applied by ca-injector mutatingadmissionwebhook"

/-- The reconciler's observable side effects, reified: event creation in
a namespace (line 221), deletion-counter increment (line 239), pod
deletion (line 240), error log (line 242). -/
inductive ReconAction where
  | createEvent (ns : String) (ref : ObjectReference) (reason : String) (msg : String)
  | incrDeletes (ns : String) (name : String)
  | deletePod (ns : String) (name : String)
  | logError (msg : String)
deriving DecidableEq, Repr

/-- Lines 196-244, one iteration of the pod loop.  `delErr` is the
result the cluster API returns for the delete call, when one is issued:
an event is recorded unconditionally; a pod without the trigger
annotation is skipped; a compliant pod is skipped; otherwise the
counter is incremented, then the delete issued, and a delete error is
only logged. -/
def reconcilePod (delErr : Option String) (pod : Pod) : List ReconAction :=
  let ev := ReconAction.createEvent pod.ns (attributionRef pod) "Deleting pod" (eventMessage pod)
  let secret := getAnn pod.annotations label
  if secret = "" then [ev]
  else if isCompliant pod then [ev]
  else [ev, .incrDeletes pod.ns pod.name, .deletePod pod.ns pod.name]
    ++ (match delErr with
        | some e => [.logError e]
        | none => [])

/-- One reconciler pass over a listed pod set (lines 195-244): the pods
are processed strictly in order, each one fully before the next;
`delFail` gives the delete outcome the cluster would return per pod. -/
def reconcilePass (delFail : Pod → Option String) : List Pod → List ReconAction
  | [] => []
  | q :: rest => reconcilePod (delFail q) q ++ reconcilePass delFail rest

/-- Outcome of one scheduled pass including the list call, lines
190-244: `logrus.Fatal` on a list error terminates the process (reified
as `fatal`); otherwise the pass processes every listed pod. -/
inductive PassOutcome where
  | fatal (err : String)
  | completed (actions : List ReconAction)
deriving DecidableEq, Repr

/-- Lines 190-244: a whole scheduled pass, given the result of the
cluster-wide pod list. -/
def runPass (delFail : Pod → Option String) : Except String (List Pod) → PassOutcome
  | .error e => .fatal e
  | .ok pods => .completed (reconcilePass delFail pods)

/-- A delete oracle under which every delete succeeds. -/
def noDelErr : Pod → Option String := fun _ => none

/-- True exactly on the append operations: paths ending in the JSON-Patch
append marker. -/
def isAppendPath : PatchPath → Bool
  | .volumesAppend => true
  | .envAppend _ => true
  | .mountsAppend _ => true
  | _ => false

/-- The container index embedded in a path, when there is one. -/
def pathIndex : PatchPath → Option Nat
  | .volumesInit => none
  | .volumesAppend => none
  | .envInit i => some i
  | .envAppend i => some i
  | .mountsInit i => some i
  | .mountsAppend i => some i

/-- True exactly on event-creation actions. -/
def isCreateEvent : ReconAction → Bool
  | .createEvent _ _ _ _ => true
  | _ => false

/-- The pod of the spec's end-to-end example: `default/worker-1`, the
trigger annotation naming `ca-secret`, two containers with nil env and
no mounts, and a nil volume list. -/
def worker1 : Pod :=
  { kind := "Pod"
    apiVersion := "v1"
    ns := "default"
    name := "worker-1"
    uid := "uid-worker-1"
    resourceVersion := "7"
    annotations := [("microcumul.us/injectssl", "ca-secret")]
    ownerReferences := []
    volumes := none
    containers := [⟨"app", none, []⟩, ⟨"sidecar", none, []⟩] }

/-- A container with nil env and no mounts: both array inits are needed. -/
def testCtr : Container := ⟨"app", none, []⟩

/-- A container whose env list is present but empty, with an existing mount. -/
def emptyEnvCtr : Container := ⟨"app", some [], [⟨"data", "/data", false⟩]⟩

/-- A pod whose single secret volume does not match its trigger annotation. -/
def mismatchPod : Pod :=
  { kind := "Pod"
    apiVersion := "v1"
    ns := "default"
    name := "mismatch"
    uid := "uid-mismatch"
    resourceVersion := "9"
    annotations := [("microcumul.us/injectssl", "ca-secret")]
    ownerReferences := []
    volumes := some [⟨volumeName, some ⟨"other-secret"⟩⟩]
    containers := [⟨"app", none, []⟩] }

/-- A pod with no annotations at all. -/
def plainPod : Pod :=
  { kind := "Pod"
    apiVersion := "v1"
    ns := "default"
    name := "plain"
    uid := "uid-plain"
    resourceVersion := "3"
    annotations := []
    ownerReferences := []
    volumes := some [⟨"data", none⟩]
    containers := [⟨"app", some [⟨"HOME", "/root"⟩], []⟩] }


/-- Structural form of one container-loop iteration: the mount-array
init (prepended last, so first) when the mount list is empty, then the
env-array init when the env list is nil, then the three appends. -/
theorem containerOps_eq (i : Nat) (ctr : Container) :
    containerOps i ctr
      = (if ctr.volumeMounts.length = 0 then [mountsInitOp i] else [])
        ++ (if ctr.env = none then [envInitOp i] else [])
        ++ [sslEnvOp i, nodeEnvOp i, mountAddOp i] := by
  unfold containerOps
  split <;> split <;> simp

/-- C5 counterexample: for a container needing both array inits the
actual operation order is mount-init, env-init, the two env appends,
mount append — not the claimed env-init first, mount-init mid-sequence. -/
theorem per_container_order_cex :
    containerOps 0 testCtr
      = [mountsInitOp 0, envInitOp 0, sslEnvOp 0, nodeEnvOp 0, mountAddOp 0]
    ∧ containerOps 0 testCtr
      ≠ [envInitOp 0, sslEnvOp 0, nodeEnvOp 0, mountsInitOp 0, mountAddOp 0] := by
  decide

/-- C5 (amended): per container the operations appear in the order
volume-mount-array init (only if needed), then environment-array init
(only if needed), then the two environment-variable appends, then the
volume-mount append, with the container's index embedded in every
operation path. -/
theorem per_container_order (i : Nat) (ctr : Container) :
    containerOps i ctr
      = (if ctr.volumeMounts.length = 0 then [mountsInitOp i] else [])
        ++ (if ctr.env = none then [envInitOp i] else [])
        ++ [sslEnvOp i, nodeEnvOp i, mountAddOp i]
    ∧ (containerOps i ctr).all (fun op => pathIndex op.path == some i) = true := by
  refine ⟨containerOps_eq i ctr, ?_⟩
  rw [containerOps_eq]
  split <;> split <;>
    simp [pathIndex, sslEnvOp, nodeEnvOp, mountAddOp, envInitOp, mountsInitOp]

/-- C6 counterexample: a container whose environment list is present
but empty receives no environment-array init operation, not exactly one. -/
theorem env_init_cex :
    ((containerOps 0 emptyEnvCtr).filter
        (fun op => op.path == PatchPath.envInit 0)).length ≠ 1 := by
  decide

/-- C6 (amended): a container with a non-nil environment list — even an
empty one — receives no environment-array init operation, only the two
appends; a container whose environment list is nil receives exactly one
init operation, positioned before its two environment appends. -/
theorem env_init_conditional (i : Nat) (ctr : Container) :
    ((containerOps i ctr).filter (fun op => op.path == PatchPath.envInit i)
        = if ctr.env = none then [envInitOp i] else [])
    ∧ ((containerOps i ctr).filter
          (fun op => op.path == PatchPath.envInit i || op.path == PatchPath.envAppend i)
        = (if ctr.env = none then [envInitOp i] else []) ++ [sslEnvOp i, nodeEnvOp i]) := by
  rw [containerOps_eq]
  constructor <;> split <;> split <;>
    simp [sslEnvOp, nodeEnvOp, mountAddOp, envInitOp, mountsInitOp]

/-- C8 counterexample: for the end-to-end example pod (two containers,
nil volume list) the generated patch has 12 operations, not 11: the nil
volume list additionally triggers the volume-array init operation. -/
theorem worker1_patch_cex : (makePatch worker1).length ≠ 11 := by
  decide

/-- C8 (amended): for the example pod `default/worker-1` with the
trigger annotation set to `ca-secret`, two containers (nil env, no
mounts) and a nil volume list, the patch is exactly these 12
operations: volume-array init, volume add, and per container
mount-array init, env-array init, the two env appends, and the mount
append. -/
theorem worker1_patch_ops :
    makePatch worker1
      = [volumesInitOp, volumeAddOp "ca-secret",
         mountsInitOp 0, envInitOp 0, sslEnvOp 0, nodeEnvOp 0, mountAddOp 0,
         mountsInitOp 1, envInitOp 1, sslEnvOp 1, nodeEnvOp 1, mountAddOp 1] := by
  decide

/-- C7 counterexample: when the cluster-wide pod listing fails, the pass
outcome is the fatal termination of the process, not a completed pass
that processed nothing. -/
theorem listing_failure_cex :
    runPass noDelErr (Except.error "boom") = PassOutcome.fatal "boom"
    ∧ runPass noDelErr (Except.error "boom") ≠ PassOutcome.completed [] := by
  exact ⟨rfl, by decide⟩

/-- C7 (amended): a failure of the cluster-wide pod listing aborts the
current pass with no pods processed and terminates the whole process
(logrus Fatal); there is no next scheduled pass. -/
theorem listing_failure_fatal (delFail : Pod → Option String) (e : String) :
    runPass delFail (Except.error e) = PassOutcome.fatal e := rfl

/-- C4: for every pod whose trigger annotation is absent from the
annotation map or present with an empty value, the mutation decider
returns the allowed-unchanged decision, whatever the pod's containers
or volumes. -/
theorem no_trigger_allow_unchanged (pod : Pod)
    (h : pod.annotations.lookup label = none ∨ getAnn pod.annotations label = "") :
    decidePod pod = AdmissionResult.allowUnchanged := by
  have h0 : getAnn pod.annotations label = "" := by
    rcases h with h | h
    · simp [getAnn, h]
    · exact h
  simp [decidePod, h0]

/-- Witness for C4 at a pod with no annotations at all. -/
theorem no_trigger_allow_unchanged_witness :
    decidePod plainPod = AdmissionResult.allowUnchanged :=
  no_trigger_allow_unchanged plainPod (Or.inl (by decide))

/-- The per-volume test of the reconciler matches exactly the volumes
with a secret source of the given name. -/
theorem volMatches_iff (sec : String) (v : Volume) :
    volMatches sec v = true ↔ ∃ s, v.secret = some s ∧ s.secretName = sec := by
  cases h : v.secret with
  | none => simp [volMatches, h]
  | some s => simp [volMatches, h]

/-- C2: the compliance predicate holds exactly when some volume of the
pod has a secret source whose name equals the trigger annotation value;
whenever every secret-sourced volume's name differs from the annotation
value (after changing either side), the predicate is false. -/
theorem compliance_predicate_spec (pod : Pod) :
    (isCompliant pod = true
      ↔ ∃ v ∈ pod.volumes.getD [], ∃ s,
          v.secret = some s ∧ s.secretName = getAnn pod.annotations label)
    ∧ ((pod.volumes.getD []).all
          (fun v => match v.secret with
            | some s => !(s.secretName == getAnn pod.annotations label)
            | none => true) = true
        → isCompliant pod = false) := by
  constructor
  · rw [isCompliant, List.any_eq_true]
    constructor
    · rintro ⟨v, hv, hm⟩
      exact ⟨v, hv, (volMatches_iff _ v).1 hm⟩
    · rintro ⟨v, hv, s, hs, hn⟩
      exact ⟨v, hv, (volMatches_iff _ v).2 ⟨s, hs, hn⟩⟩
  · intro hall
    cases hcase : isCompliant pod with
    | false => rfl
    | true =>
      exfalso
      rw [isCompliant, List.any_eq_true] at hcase
      obtain ⟨v, hv, hm⟩ := hcase
      obtain ⟨s, hs, hn⟩ := (volMatches_iff _ v).1 hm
      have hva := List.all_eq_true.mp hall v hv
      rw [hs] at hva
      simp only [Bool.not_eq_true'] at hva
      rw [hn] at hva
      simp at hva

/-- Witness for C2: a pod whose only secret volume names a different
secret than its annotation is not compliant. -/
theorem compliance_predicate_witness : isCompliant mismatchPod = false :=
  (compliance_predicate_spec mismatchPod).2 (by decide)

/-- One container's operations filtered for the env appends of index j:
the container's own two env appends when its index is j, nothing otherwise. -/
theorem containerOps_filter_envAppend (k j : Nat) (c : Container) :
    (containerOps k c).filter (fun op => op.path == PatchPath.envAppend j)
      = if k = j then [sslEnvOp j, nodeEnvOp j] else [] := by
  rw [containerOps_eq]
  by_cases hkj : k = j
  · subst hkj
    rw [if_pos rfl]
    split <;> split <;> simp [sslEnvOp, nodeEnvOp, mountAddOp, envInitOp, mountsInitOp]
  · rw [if_neg hkj]
    split <;> split <;>
      simp [sslEnvOp, nodeEnvOp, mountAddOp, envInitOp, mountsInitOp, hkj]

/-- One container's operations filtered for the mount append of index j. -/
theorem containerOps_filter_mountsAppend (k j : Nat) (c : Container) :
    (containerOps k c).filter (fun op => op.path == PatchPath.mountsAppend j)
      = if k = j then [mountAddOp j] else [] := by
  rw [containerOps_eq]
  by_cases hkj : k = j
  · subst hkj
    rw [if_pos rfl]
    split <;> split <;> simp [sslEnvOp, nodeEnvOp, mountAddOp, envInitOp, mountsInitOp]
  · rw [if_neg hkj]
    split <;> split <;>
      simp [sslEnvOp, nodeEnvOp, mountAddOp, envInitOp, mountsInitOp, hkj]

/-- No container operation targets the volume-append path. -/
theorem containerOps_filter_volumesAppend (k : Nat) (c : Container) :
    (containerOps k c).filter (fun op => op.path == PatchPath.volumesAppend) = [] := by
  rw [containerOps_eq]
  split <;> split <;> simp [sslEnvOp, nodeEnvOp, mountAddOp, envInitOp, mountsInitOp]

/-- Each container contributes exactly three append operations. -/
theorem containerOps_countP_append (k : Nat) (c : Container) :
    (containerOps k c).countP (fun op => isAppendPath op.path) = 3 := by
  rw [containerOps_eq]
  split <;> split <;>
    simp [sslEnvOp, nodeEnvOp, mountAddOp, envInitOp, mountsInitOp,
      isAppendPath, List.countP_cons]

/-- The container loop's operations filtered for the env appends of
index j: exactly the two env appends when j falls in the index range of
the loop, nothing otherwise. -/
theorem containersPatch_filter_envAppend (j : Nat) :
    ∀ (k : Nat) (cs : List Container),
      (containersPatch k cs).filter (fun op => op.path == PatchPath.envAppend j)
        = if k ≤ j ∧ j < k + cs.length then [sslEnvOp j, nodeEnvOp j] else [] := by
  intro k cs
  induction cs generalizing k with
  | nil =>
    simp only [containersPatch, List.filter_nil, List.length_nil]
    split
    · exfalso; omega
    · rfl
  | cons c cs ih =>
    rw [containersPatch, List.filter_append, containerOps_filter_envAppend, ih (k + 1)]
    simp only [List.length_cons]
    split_ifs <;> first | (exfalso; omega) | simp

/-- The container loop's operations filtered for the mount append of index j. -/
theorem containersPatch_filter_mountsAppend (j : Nat) :
    ∀ (k : Nat) (cs : List Container),
      (containersPatch k cs).filter (fun op => op.path == PatchPath.mountsAppend j)
        = if k ≤ j ∧ j < k + cs.length then [mountAddOp j] else [] := by
  intro k cs
  induction cs generalizing k with
  | nil =>
    simp only [containersPatch, List.filter_nil, List.length_nil]
    split
    · exfalso; omega
    · rfl
  | cons c cs ih =>
    rw [containersPatch, List.filter_append, containerOps_filter_mountsAppend, ih (k + 1)]
    simp only [List.length_cons]
    split_ifs <;> first | (exfalso; omega) | simp

/-- No operation of the container loop targets the volume-append path. -/
theorem containersPatch_filter_volumesAppend :
    ∀ (k : Nat) (cs : List Container),
      (containersPatch k cs).filter (fun op => op.path == PatchPath.volumesAppend) = [] := by
  intro k cs
  induction cs generalizing k with
  | nil => rfl
  | cons c cs ih =>
    rw [containersPatch, List.filter_append, containerOps_filter_volumesAppend,
      ih (k + 1), List.append_nil]

/-- The container loop contributes exactly three append operations per container. -/
theorem containersPatch_countP_append :
    ∀ (k : Nat) (cs : List Container),
      (containersPatch k cs).countP (fun op => isAppendPath op.path) = 3 * cs.length := by
  intro k cs
  induction cs generalizing k with
  | nil => rfl
  | cons c cs ih =>
    rw [containersPatch, List.countP_append, containerOps_countP_append, ih (k + 1)]
    simp [List.length_cons]
    ring

/-- C1: for a pod with a non-empty trigger annotation the decider
returns the generated patch, and that patch contains exactly one
volume-append operation, whose value references the annotated secret
under the fixed volume name; for each of the pod's containers (index j)
exactly two env appends, both valued at the fixed file path /ssl/ca.crt,
and exactly one mount append, read-only at /ssl; and no append
operations beyond those 1 + 3·N. -/
theorem patch_completeness (pod : Pod)
    (h : getAnn pod.annotations label ≠ "") :
    decidePod pod = AdmissionResult.allowPatch (makePatch pod)
    ∧ (makePatch pod).filter (fun op => op.path == PatchPath.volumesAppend)
        = [volumeAddOp (getAnn pod.annotations label)]
    ∧ (∀ j, j < pod.containers.length →
        (makePatch pod).filter (fun op => op.path == PatchPath.envAppend j)
            = [sslEnvOp j, nodeEnvOp j]
        ∧ (makePatch pod).filter (fun op => op.path == PatchPath.mountsAppend j)
            = [mountAddOp j])
    ∧ (makePatch pod).countP (fun op => isAppendPath op.path)
        = 1 + 3 * pod.containers.length := by
  refine ⟨by simp [decidePod, h], ?_, ?_, ?_⟩
  · rw [makePatch, List.filter_append, List.filter_append,
      containersPatch_filter_volumesAppend, List.append_nil]
    split <;> simp [volumesInitOp, volumeAddOp]
  · intro j hj
    have hc : 0 ≤ j ∧ j < 0 + pod.containers.length := by omega
    constructor
    · rw [makePatch, List.filter_append, List.filter_append,
        containersPatch_filter_envAppend, if_pos hc]
      split <;> simp [volumesInitOp, volumeAddOp]
    · rw [makePatch, List.filter_append, List.filter_append,
        containersPatch_filter_mountsAppend, if_pos hc]
      split <;> simp [volumesInitOp, volumeAddOp]
  · rw [makePatch, List.countP_append, List.countP_append,
      containersPatch_countP_append]
    split <;> simp [volumesInitOp, volumeAddOp, isAppendPath, List.countP_cons]

/-- Witness for C1 at the two-container example pod. -/
theorem patch_completeness_witness :
    decidePod worker1 = AdmissionResult.allowPatch (makePatch worker1) :=
  (patch_completeness worker1 (by decide)).1

/-- C9: every processed pod yields exactly one informational event,
whatever its annotation or compliance; the event heads the pod's action
list, is created in the pod's namespace, and its involved object is
built from the first owner reference (kind, name, UID, API version from
the owner, namespace from the pod) when one exists, else from the pod's
own identity. -/
theorem event_attribution_per_pod (delErr : Option String) (pod : Pod) :
    (reconcilePod delErr pod).countP isCreateEvent = 1
    ∧ (reconcilePod delErr pod).head?
        = some (ReconAction.createEvent pod.ns (attributionRef pod)
            "Deleting pod" (eventMessage pod))
    ∧ attributionRef pod
        = (match pod.ownerReferences with
           | [] => ⟨pod.kind, pod.ns, pod.name, pod.uid, pod.apiVersion, pod.resourceVersion⟩
           | o :: _ => ⟨o.kind, pod.ns, o.name, o.uid, o.apiVersion, ""⟩) := by
  refine ⟨?_, ?_, ?_⟩
  · by_cases h1 : getAnn pod.annotations label = ""
    · simp [reconcilePod, h1, isCreateEvent, List.countP_cons]
    · by_cases h2 : isCompliant pod = true
      · simp [reconcilePod, h1, h2, isCreateEvent, List.countP_cons]
      · cases delErr <;>
          simp [reconcilePod, h1, h2, isCreateEvent, List.countP_cons]
  · by_cases h1 : getAnn pod.annotations label = ""
    · simp [reconcilePod, h1]
    · by_cases h2 : isCompliant pod = true
      · simp [reconcilePod, h1, h2]
      · cases delErr <;> simp [reconcilePod, h1, h2]
  · rcases h : pod.ownerReferences with _ | ⟨o, rest⟩ <;> simp [attributionRef, h]

/-- The per-pod deletes aimed at a given namespace and name: one when
the pod is that one, carries the trigger annotation and is not
compliant, zero otherwise — whatever the delete call then returns. -/
theorem reconcilePod_countP_delete (d : Option String) (q : Pod) (ns nm : String) :
    (reconcilePod d q).countP (fun a => a == ReconAction.deletePod ns nm)
      = if (q.ns = ns ∧ q.name = nm)
            ∧ getAnn q.annotations label ≠ "" ∧ isCompliant q = false
        then 1 else 0 := by
  by_cases h1 : getAnn q.annotations label = ""
  · rw [if_neg (by simp [h1])]
    simp [reconcilePod, h1, List.countP_cons]
  · by_cases h2 : isCompliant q = true
    · rw [if_neg (by simp [h2])]
      simp [reconcilePod, h1, h2, List.countP_cons]
    · by_cases hqn : q.ns = ns ∧ q.name = nm
      · rw [if_pos ⟨hqn, h1, by simpa using h2⟩]
        cases d <;>
          simp [reconcilePod, h1, h2, List.countP_cons, hqn.1, hqn.2]
      · rw [if_neg (by tauto)]
        cases d <;>
          simp [reconcilePod, h1, h2, List.countP_cons, hqn]

/-- The per-pod deletion-counter increments labeled with a given
namespace and name: one exactly when the pod is that one, annotated and
non-compliant. -/
theorem reconcilePod_countP_incr (d : Option String) (q : Pod) (ns nm : String) :
    (reconcilePod d q).countP (fun a => a == ReconAction.incrDeletes ns nm)
      = if (q.ns = ns ∧ q.name = nm)
            ∧ getAnn q.annotations label ≠ "" ∧ isCompliant q = false
        then 1 else 0 := by
  by_cases h1 : getAnn q.annotations label = ""
  · rw [if_neg (by simp [h1])]
    simp [reconcilePod, h1, List.countP_cons]
  · by_cases h2 : isCompliant q = true
    · rw [if_neg (by simp [h2])]
      simp [reconcilePod, h1, h2, List.countP_cons]
    · by_cases hqn : q.ns = ns ∧ q.name = nm
      · rw [if_pos ⟨hqn, h1, by simpa using h2⟩]
        cases d <;>
          simp [reconcilePod, h1, h2, List.countP_cons, hqn.1, hqn.2]
      · rw [if_neg (by tauto)]
        cases d <;>
          simp [reconcilePod, h1, h2, List.countP_cons, hqn]

/-- A pass over pods none of which bears a given namespace and name
issues no delete aimed at that namespace and name. -/
theorem reconcilePass_no_delete (f : Pod → Option String) (ns nm : String) :
    ∀ pods : List Pod,
      pods.countP (fun q => q.ns == ns && q.name == nm) = 0 →
      (reconcilePass f pods).countP (fun a => a == ReconAction.deletePod ns nm) = 0 := by
  intro pods
  induction pods with
  | nil => intro _; rfl
  | cons q rest ih =>
    intro h0
    rw [List.countP_cons] at h0
    have hq : ¬(q.ns = ns ∧ q.name = nm) := by
      intro ⟨ha, hb⟩
      simp [ha, hb] at h0
    have hrest : rest.countP (fun q => q.ns == ns && q.name == nm) = 0 := by omega
    rw [reconcilePass, List.countP_append, ih hrest,
      reconcilePod_countP_delete, if_neg (by tauto)]

/-- A pass over pods none of which bears a given namespace and name
issues no counter increment labeled with that namespace and name. -/
theorem reconcilePass_no_incr (f : Pod → Option String) (ns nm : String) :
    ∀ pods : List Pod,
      pods.countP (fun q => q.ns == ns && q.name == nm) = 0 →
      (reconcilePass f pods).countP (fun a => a == ReconAction.incrDeletes ns nm) = 0 := by
  intro pods
  induction pods with
  | nil => intro _; rfl
  | cons q rest ih =>
    intro h0
    rw [List.countP_cons] at h0
    have hq : ¬(q.ns = ns ∧ q.name = nm) := by
      intro ⟨ha, hb⟩
      simp [ha, hb] at h0
    have hrest : rest.countP (fun q => q.ns == ns && q.name == nm) = 0 := by omega
    rw [reconcilePass, List.countP_append, ih hrest,
      reconcilePod_countP_incr, if_neg (by tauto)]

/-- C3: over a pass whose listing contains the pod (once, by namespace
and name), the pass issues exactly one delete of that pod and exactly
one deletion-counter increment labeled with its namespace and name when
the pod bears a non-empty trigger annotation and no volume matches it,
and none of either when the pod is compliant or its annotation is
absent or empty — whatever the delete calls return. -/
theorem reconciler_remediation (f : Pod → Option String) (pods : List Pod) (pod : Pod)
    (hmem : pod ∈ pods)
    (huniq : pods.countP (fun q => q.ns == pod.ns && q.name == pod.name) = 1) :
    (reconcilePass f pods).countP (fun a => a == ReconAction.deletePod pod.ns pod.name)
      = (if getAnn pod.annotations label ≠ "" ∧ isCompliant pod = false then 1 else 0)
    ∧ (reconcilePass f pods).countP (fun a => a == ReconAction.incrDeletes pod.ns pod.name)
      = (if getAnn pod.annotations label ≠ "" ∧ isCompliant pod = false then 1 else 0) := by
  induction pods with
  | nil => cases hmem
  | cons q rest ih =>
    rw [List.countP_cons] at huniq
    by_cases hq : q.ns = pod.ns ∧ q.name = pod.name
    · have hqb : (q.ns == pod.ns && q.name == pod.name) = true := by
        simp [hq.1, hq.2]
      rw [hqb, if_pos rfl] at huniq
      have hrest0 : rest.countP (fun r => r.ns == pod.ns && r.name == pod.name) = 0 := by
        omega
      have hpq : pod = q := by
        rcases List.mem_cons.mp hmem with h | h
        · exact h
        · exfalso
          have : 0 < rest.countP (fun r => r.ns == pod.ns && r.name == pod.name) :=
            List.countP_pos_iff.mpr ⟨pod, h, by simp⟩
          omega
      subst hpq
      constructor
      · rw [reconcilePass, List.countP_append,
          reconcilePass_no_delete f pod.ns pod.name rest hrest0,
          reconcilePod_countP_delete, Nat.add_zero]
        exact if_congr (by tauto) rfl rfl
      · rw [reconcilePass, List.countP_append,
          reconcilePass_no_incr f pod.ns pod.name rest hrest0,
          reconcilePod_countP_incr, Nat.add_zero]
        exact if_congr (by tauto) rfl rfl
    · have hqb : (q.ns == pod.ns && q.name == pod.name) = false := by
        rcases not_and_or.mp hq with h | h <;> simp [h]
      rw [hqb, if_neg (by simp)] at huniq
      have hmem2 : pod ∈ rest := by
        rcases List.mem_cons.mp hmem with h | h
        · exact absurd (by subst h; exact ⟨rfl, rfl⟩) hq
        · exact h
      obtain ⟨ihd, ihi⟩ := ih hmem2 (by omega)
      constructor
      · rw [reconcilePass, List.countP_append, ihd,
          reconcilePod_countP_delete, if_neg (by tauto), Nat.zero_add]
      · rw [reconcilePass, List.countP_append, ihi,
          reconcilePod_countP_incr, if_neg (by tauto), Nat.zero_add]

/-- Witness for C3 at a one-pod pass over an annotated, non-compliant pod. -/
theorem reconciler_remediation_witness :
    (reconcilePass noDelErr [mismatchPod]).countP
        (fun a => a == ReconAction.deletePod mismatchPod.ns mismatchPod.name) = 1 :=
  ((reconciler_remediation noDelErr [mismatchPod] mismatchPod
      (by decide) (by decide)).1).trans (by decide)

/-- C10: for an annotated non-compliant pod whose delete call fails,
the pod's actions are, in order, the audit event, the counter increment,
the delete, and only then the error log — so the counter is incremented
exactly once, before the delete is issued, whatever the delete returns —
and the pass goes on to the remaining pods unchanged. -/
theorem counter_incremented_before_delete (e : String) (pod : Pod)
    (hann : getAnn pod.annotations label ≠ "") (hnc : isCompliant pod = false) :
    reconcilePod (some e) pod
      = [ReconAction.createEvent pod.ns (attributionRef pod) "Deleting pod" (eventMessage pod),
         ReconAction.incrDeletes pod.ns pod.name,
         ReconAction.deletePod pod.ns pod.name,
         ReconAction.logError e]
    ∧ ∀ (f : Pod → Option String) (rest : List Pod),
        reconcilePass f (pod :: rest) = reconcilePod (f pod) pod ++ reconcilePass f rest := by
  constructor
  · simp [reconcilePod, hann, hnc]
  · intro f rest
    rfl

/-- Witness for C10 at the non-compliant example pod with a failing delete. -/
theorem counter_incremented_before_delete_witness :
    reconcilePod (some "api error") mismatchPod
      = [ReconAction.createEvent mismatchPod.ns (attributionRef mismatchPod)
           "Deleting pod" (eventMessage mismatchPod),
         ReconAction.incrDeletes mismatchPod.ns mismatchPod.name,
         ReconAction.deletePod mismatchPod.ns mismatchPod.name,
         ReconAction.logError "api error"] :=
  (counter_incremented_before_delete "api error" mismatchPod (by decide) (by decide)).1
